import Mathlib

/-!
# Verification of the quiz-bot core (conversation state machine + scoring engine)

Shallow embedding of the Python sources of the TgBot-ForEducation repository:

* `logic/student_do_test.py` — `StateManager`, `_check_open_answer`,
  `_generate_score_report`, `start_appeal`;
* `database.py` — `save_appeal` and the single-writer orchestrator;
* `logic/teacher_show_result.py` — `save_score` / `_add_change`;
* `logic/teacher_create.py` — `TeacherTestValidator.validate_options`,
  `process_options`, `save_edited_question`.

Machine reals (Python floats) are modelled by `ℚ`; Python `int` by `ℤ`/`ℕ`;
Python dicts by association lists traversed in insertion order, which matches
the iteration order of CPython dicts.
-/

namespace QuizBot

/-- Python's `int(x)` truncation of a real toward zero, on rationals. -/
def pyInt (q : ℚ) : ℤ := if 0 ≤ q then ⌊q⌋ else ⌈q⌉

/-- The fixed prefix that `_check_open_answer` prepends to every generated comment. -/
def commentPrefix : String := "Комментарий модели-проверяющего (Grok-3): "

/-- Comment band for `score >= 8`. -/
def bandExcellent : String := "Ответ близок к правильному, отличная работа!"

/-- Comment band for `5 <= score < 8`. -/
def bandPartial : String := "Ответ частично правильный, но требует уточнений."

/-- Comment band for `2 <= score < 5`. -/
def bandSome : String := "Ответ имеет некоторое сходство, но нуждается в доработке."

/-- Comment band for `score < 2`. -/
def bandNoMatch : String := "Ответ не соответствует правильному, требуется более точное объяснение."

/-- Embedding of `StudentTestHandler._check_open_answer` (logic/student_do_test.py).

The Python code is
```
similarity = SequenceMatcher(None, user_answer.lower(), correct_answer.lower()).ratio()
score = int(similarity * 10)
score = max(0, min(10, score))
if score >= 8: ... elif score >= 5: ... elif score >= 2: ... else ...
return score, f"Комментарий модели-проверяющего (Grok-3): \x7bcomment\x7d"
```
`difflib.SequenceMatcher` belongs to the Python standard library, not to this
repository; it is an external collaborator whose `ratio()` is documented to be
a real number in `[0, 1]`.  The embedding therefore takes the ratio computation
as a function parameter `ratio` and applies it, exactly as the source does, to
the lower-cased answer and correct answer.  Being a pure Lean function, the
embedding is deterministic by construction, as is the Python original (it
calls no randomness and reads no ambient state). -/
def checkOpenAnswer (ratio : String → String → ℚ) (user_answer correct_answer : String) :
    ℤ × String :=
  let similarity := ratio user_answer.toLower correct_answer.toLower
  let score : ℤ := pyInt (similarity * 10)
  let score : ℤ := max 0 (min 10 score)
  let comment : String :=
    if 8 ≤ score then bandExcellent
    else if 5 ≤ score then bandPartial
    else if 2 ≤ score then bandSome
    else bandNoMatch
  (score, commentPrefix ++ comment)

/-- Embedding of the 24-hour gate at the top of `StudentTestHandler.start_appeal`
(logic/student_do_test.py).  Timestamps are modelled as rational seconds
(`datetime.fromisoformat` differences via `total_seconds()`); `completed_at`
is `none` when the session has no recorded `test_completed_at`.  The function
returns `true` when the handler falls through to the appeal question-selection
keyboard and `false` when it rejects with the expiry message. -/
def startAppealAllowed (completed_at : Option ℚ) (now : ℚ) : Bool :=
  match completed_at with
  | some completed_time => if now - completed_time > 24 * 3600 then false else true
  | none => true

/-- Embedding of `TeacherTestValidator.validate_options` (logic/teacher_create.py):
```
all_options = options + [correct_answer]
if len(all_options) < 2 or len(all_options) > 7: return False
if len(set(all_options)) != len(all_options): return False
return True
```
`len(set(xs)) != len(xs)` is the duplicate test, rendered with `List.dedup`. -/
def validate_options (options : List String) (correct_answer : String) : Bool :=
  let all_options := options ++ [correct_answer]
  if all_options.length < 2 ∨ all_options.length > 7 then false
  else if all_options.dedup.length ≠ all_options.length then false
  else true

/-- Embedding of the session `StateManager` (logic/student_do_test.py):
a stack of states (Python appends and pops at the tail of
`user_data["state_stack"]`, kept here in the same tail-is-top order) plus the
`user_data["state_data"]` dict of per-state key/value dicts, modelled as an
optional inner map per state. -/
structure StateManager (σ κ α : Type) where
  state_stack : List σ
  state_data : σ → Option (κ → Option α)

namespace StateManager

variable {σ κ α : Type} [DecidableEq σ] [DecidableEq κ]

/-- `push`: `state_stack.append(state)`. -/
def push (m : StateManager σ κ α) (state : σ) : StateManager σ κ α :=
  { m with state_stack := m.state_stack ++ [state] }

/-- `pop`: `state_stack.pop() if state_stack else None`; returns the popped
state together with the updated manager. -/
def pop (m : StateManager σ κ α) : Option σ × StateManager σ κ α :=
  if m.state_stack = [] then (none, m)
  else (m.state_stack.getLast?, { m with state_stack := m.state_stack.dropLast })

/-- `current`: `state_stack[-1] if state_stack else None`. -/
def current (m : StateManager σ κ α) : Option σ :=
  m.state_stack.getLast?

/-- `set_data`: create the inner dict if the state has none, then set the key. -/
def set_data (m : StateManager σ κ α) (state : σ) (key : κ) (value : α) :
    StateManager σ κ α :=
  let inner := (m.state_data state).getD fun _ => none
  { m with
    state_data := fun s =>
      if s = state then some (fun k => if k = key then some value else inner k)
      else m.state_data s }

/-- `get_data`: `state_data.get(state, \x7b\x7d).get(key, default)`. -/
def get_data (m : StateManager σ κ α) (state : σ) (key : κ) (default : α) : α :=
  (((m.state_data state).getD fun _ => none) key).getD default

/-- `clear_data`: `state_data.clear()`. -/
def clear_data (m : StateManager σ κ α) : StateManager σ κ α :=
  { m with state_data := fun _ => none }

/-- `clear_state_data`: `del state_data[state]` when present. -/
def clear_state_data (m : StateManager σ κ α) (state : σ) : StateManager σ κ α :=
  { m with state_data := fun s => if s = state then none else m.state_data s }

end StateManager

lemma push_state_data {σ κ α : Type} (m : StateManager σ κ α) (s : σ) :
    (m.push s).state_data = m.state_data := rfl

lemma pop_state_data {σ κ α : Type} [DecidableEq σ] (m : StateManager σ κ α) :
    m.pop.2.state_data = m.state_data := by
  unfold StateManager.pop
  split <;> rfl

/-! ## Score report generator (`StudentTestHandler._generate_score_report`) -/

/-- One entry of `test["questions"]`.  `type` is the Python string
discriminator: `"test"` marks a closed (multiple-choice) question, anything
else an open one. -/
structure Question where
  type : String
  text : String := ""
  correct_answer : String
  options : List String := []
  check_comment : String := ""
deriving DecidableEq

/-- The sentinel Python uses for a missing answer:
`user_answers.get(idx, "Не отвечен")`. -/
def NOT_ANSWERED : String := "Не отвечен"

/-- Kernel-computable rendering of Python's `str.replace(old, new)` (replace
all non-overlapping occurrences, scanning left to right, never rescanning the
replacement).  The fuel argument is initialised to the length of the subject
and only bounds the structural recursion; it never runs out. -/
def replaceFuel (pat repl : List Char) : ℕ → List Char → List Char
  | _, [] => []
  | 0, l => l
  | Nat.succ fuel, c :: rest =>
    if pat ≠ [] ∧ pat.isPrefixOf (c :: rest) then
      repl ++ replaceFuel pat repl fuel (List.drop pat.length (c :: rest))
    else c :: replaceFuel pat repl fuel rest

/-- Python `s.replace(pattern, repl)` for a non-empty pattern (the generator
only ever replaces the fixed non-empty `commentPrefix`). -/
def pyReplace (s pattern repl : String) : String :=
  String.mk (replaceFuel pattern.data repl.data s.data.length s.data)

/-- The body of the `for idx, question in enumerate(test["questions"])` loop of
`_generate_score_report`, for one question and its effective user answer.
Returns `(question_score, increment added to total_score, status line,
Comment_LLM entry for this index if any)`.  The `Comment_LLM` entry reproduces
the two Python assignments: the raw checker comment is stored first and then —
when the comment is non-empty — overwritten by the comment with the
`commentPrefix` stripped, so only the final value is kept here. -/
def evalQuestion (checkOpen : String → String → ℤ × String) (q : Question)
    (user_answer : String) : ℤ × ℤ × String × Option String :=
  if q.type = "test" then
    if user_answer = q.correct_answer then
      (10, 10, "✅ Верно (+10 баллов)", none)
    else
      (0, 0, "❌ Неверно\nПравильный ответ: " ++ q.correct_answer ++
        "\nВаш ответ: " ++ user_answer, none)
  else
    if user_answer = NOT_ANSWERED then
      (0, 0, "❌ Не отвечен", none)
    else
      let sc := checkOpen user_answer q.correct_answer
      (sc.1, sc.1,
        "📝 Оценка: " ++ toString sc.1 ++ "/10\nВаш ответ: " ++ user_answer ++
          "\n" ++ sc.2,
        some (if sc.2 ≠ "" then pyReplace sc.2 commentPrefix "" else sc.2))

/-- Mutable state of the report loop: `total_score`, `max_score`, the `scores`
dict, the `Comment_LLM` dict and the per-question report blocks, in question
order.  Python keys `scores` and `Comment_LLM` by `str(idx)`; decimal
rendering of naturals being injective, the embedding keys them by `idx`
itself. -/
structure LoopAcc where
  total_score : ℤ
  max_score : ℕ
  scores : List (ℕ × ℤ)
  comment_llm : List (ℕ × String)
  question_lines : List String
deriving DecidableEq

/-- The question loop of `_generate_score_report`, started at index `idx`.
Each iteration adds 10 to `max_score`, computes the effective answer
`user_answers.get(idx, "Не отвечен")`, evaluates the question and records the
score, the optional `Comment_LLM` entry and the report block. -/
def reportLoop (checkOpen : String → String → ℤ × String)
    (answers : List (ℕ × String)) : ℕ → List Question → LoopAcc
  | _, [] => ⟨0, 0, [], [], []⟩
  | idx, q :: rest =>
    let user_answer := (answers.lookup idx).getD NOT_ANSWERED
    let e := evalQuestion checkOpen q user_answer
    let r := reportLoop checkOpen answers (idx + 1) rest
    { total_score := e.2.1 + r.total_score
      max_score := 10 + r.max_score
      scores := (idx, e.1) :: r.scores
      comment_llm :=
        (match e.2.2.2 with
          | some c => [(idx, c)]
          | none => []) ++ r.comment_llm
      question_lines :=
        ("**Вопрос " ++ toString (idx + 1) ++ ":**\n" ++ e.2.2.1) :: r.question_lines }

/-- Round half to even, the tie-breaking rule of Python's `round` and of the
`"\x7b:.1f\x7d"` float formatting used for the percentage. -/
def roundHalfEven (q : ℚ) : ℤ :=
  let f := ⌊q⌋
  let r := q - f
  if r < 1 / 2 then f
  else if 1 / 2 < r then f + 1
  else if Even f then f else f + 1

/-- Python `"\x7b:.1f\x7d"` formatting of a non-negative rational: one decimal
digit, rounding half to even. -/
def fmtFixed1 (q : ℚ) : String :=
  let n := roundHalfEven (q * 10)
  if n < 0 then "-" ++ toString (-n / 10) ++ "." ++ toString (-n % 10)
  else toString (n / 10) ++ "." ++ toString (n % 10)

/-- The final report line
`f"\n💡 Итоговый балл: \x7btotal_score\x7d/\x7bmax_score\x7d (\x7bpercentage:.1f\x7d%)"`. -/
def finalReportLine (total_score : ℤ) (max_score : ℕ) (percentage : ℚ) : String :=
  "\n💡 Итоговый балл: " ++ toString total_score ++ "/" ++ toString max_score ++
    " (" ++ fmtFixed1 percentage ++ "%)"

/-- Result of `_generate_score_report`.  Python returns the dict
`\x7b"report_text", "scores", "Comment_LLM"\x7d`; the embedding additionally
exposes the internal `total_score`, `max_score` and `percentage` values that
the source interpolates into the report text, so that theorems can speak about
them. -/
structure GeneratedReport where
  report_lines : List String
  scores : List (ℕ × ℤ)
  comment_llm : List (ℕ × String)
  total_score : ℤ
  max_score : ℕ
  percentage : ℚ

/-- Embedding of `StudentTestHandler._generate_score_report`
(logic/student_do_test.py, lines 654–699).  `checkOpen` stands for the bound
method `self._check_open_answer` (in the real system
`checkOpenAnswer ratio`); `answers` is the `user_answers` dict.
`report_text` is `"\n".join(report_lines)`. -/
def generateScoreReport (checkOpen : String → String → ℤ × String)
    (questions : List Question) (answers : List (ℕ × String)) : GeneratedReport :=
  let L := reportLoop checkOpen answers 0 questions
  let percentage : ℚ :=
    if L.max_score > 0 then (L.total_score : ℚ) / (L.max_score : ℚ) * 100 else 0
  { report_lines :=
      "📊 Результаты теста:" :: L.question_lines ++
        [finalReportLine L.total_score L.max_score percentage,
         "⚠ Это предварительная оценка. Итоговую оценку сообщит учитель."]
    scores := L.scores
    comment_llm := L.comment_llm
    total_score := L.total_score
    max_score := L.max_score
    percentage := percentage }

/-- `report_text` of the generated report. -/
def GeneratedReport.report_text (r : GeneratedReport) : String :=
  String.intercalate "\n" r.report_lines

lemma evalQuestion_inc (checkOpen : String → String → ℤ × String) (q : Question)
    (ua : String) : (evalQuestion checkOpen q ua).2.1 = (evalQuestion checkOpen q ua).1 := by
  unfold evalQuestion
  split_ifs <;> rfl

lemma evalQuestion_closed (checkOpen : String → String → ℤ × String) (q : Question)
    (ua : String) (hty : q.type = "test") :
    (evalQuestion checkOpen q ua).1 = if ua = q.correct_answer then 10 else 0 := by
  unfold evalQuestion
  rw [if_pos hty]
  split_ifs <;> rfl

lemma evalQuestion_unanswered (checkOpen : String → String → ℤ × String) (q : Question)
    (hty : ¬q.type = "test") :
    evalQuestion checkOpen q NOT_ANSWERED = (0, 0, "❌ Не отвечен", none) := by
  unfold evalQuestion
  rw [if_neg hty, if_pos rfl]

lemma evalQuestion_llm_isSome (checkOpen : String → String → ℤ × String) (q : Question)
    (o : Option String) (c : String)
    (h : (evalQuestion checkOpen q (o.getD NOT_ANSWERED)).2.2.2 = some c) :
    o.isSome := by
  cases o with
  | some a => rfl
  | none =>
    exfalso
    unfold evalQuestion at h
    simp only [Option.getD_none] at h
    split_ifs at h

lemma reportLoop_sum (checkOpen : String → String → ℤ × String)
    (answers : List (ℕ × String)) :
    ∀ (idx : ℕ) (qs : List Question),
      (((reportLoop checkOpen answers idx qs).scores.map Prod.snd).sum) =
        (reportLoop checkOpen answers idx qs).total_score := by
  intro idx qs
  induction qs generalizing idx with
  | nil => rfl
  | cons q rest ih =>
    simp only [reportLoop]
    rw [List.map_cons, List.sum_cons, ih, evalQuestion_inc]

lemma reportLoop_max (checkOpen : String → String → ℤ × String)
    (answers : List (ℕ × String)) :
    ∀ (idx : ℕ) (qs : List Question),
      (reportLoop checkOpen answers idx qs).max_score = 10 * qs.length := by
  intro idx qs
  induction qs generalizing idx with
  | nil => rfl
  | cons q rest ih =>
    simp only [reportLoop]
    rw [ih, List.length_cons]
    ring

lemma reportLoop_scores_get (checkOpen : String → String → ℤ × String)
    (answers : List (ℕ × String)) :
    ∀ (qs : List Question) (idx j : ℕ) (q : Question), qs[j]? = some q →
      (reportLoop checkOpen answers idx qs).scores[j]? =
        some (idx + j,
          (evalQuestion checkOpen q ((answers.lookup (idx + j)).getD NOT_ANSWERED)).1) := by
  intro qs
  induction qs with
  | nil => intro idx j q h; simp at h
  | cons q0 rest ih =>
    intro idx j q h
    cases j with
    | zero =>
      simp only [List.getElem?_cons_zero, Option.some.injEq] at h
      subst h
      simp only [reportLoop]
      simp
    | succ j =>
      simp only [List.getElem?_cons_succ] at h
      have := ih (idx + 1) j q h
      simp only [reportLoop]
      rw [List.getElem?_cons_succ, this]
      have harith : idx + 1 + j = idx + (j + 1) := by omega
      rw [harith]

lemma reportLoop_llm_keys (checkOpen : String → String → ℤ × String)
    (answers : List (ℕ × String)) :
    ∀ (idx : ℕ) (qs : List Question) (p : ℕ × String),
      p ∈ (reportLoop checkOpen answers idx qs).comment_llm →
        (answers.lookup p.1).isSome := by
  intro idx qs
  induction qs generalizing idx with
  | nil => intro p h; simp [reportLoop] at h
  | cons q rest ih =>
    intro p hp
    simp only [reportLoop] at hp
    rw [List.mem_append] at hp
    rcases hp with hp | hp
    · rcases he : (evalQuestion checkOpen q
          ((answers.lookup idx).getD NOT_ANSWERED)).2.2.2 with _ | c
      · rw [he] at hp
        simp at hp
      · rw [he] at hp
        simp only [List.mem_singleton] at hp
        subst hp
        exact evalQuestion_llm_isSome checkOpen q _ c he
    · exact ih (idx + 1) p hp

/-- C2.  In the report generator, a closed (`"test"`-type) question with
effective answer `a` is scored `if a == correct_answer then 10 else 0`; the
score is `10` exactly when the answer equals the correct answer. -/
theorem closed_question_scoring (checkOpen : String → String → ℤ × String)
    (questions : List Question) (answers : List (ℕ × String)) (j : ℕ) (q : Question)
    (a : String) (hq : questions[j]? = some q) (hty : q.type = "test")
    (ha : answers.lookup j = some a) :
    (generateScoreReport checkOpen questions answers).scores[j]? =
      some (j, if a = q.correct_answer then 10 else 0) ∧
    ((generateScoreReport checkOpen questions answers).scores[j]? = some (j, 10) ↔
      a = q.correct_answer) := by
  have hg : (generateScoreReport checkOpen questions answers).scores =
      (reportLoop checkOpen answers 0 questions).scores := rfl
  have hget := reportLoop_scores_get checkOpen answers questions 0 j q hq
  rw [Nat.zero_add] at hget
  rw [ha] at hget
  simp only [Option.getD_some] at hget
  rw [evalQuestion_closed checkOpen q a hty] at hget
  constructor
  · rw [hg, hget]
  · rw [hg, hget]
    by_cases hac : a = q.correct_answer
    · simp [hac]
    · simp only [if_neg hac, Option.some.injEq, Prod.mk.injEq, true_and]
      constructor
      · intro h
        exact absurd h (by decide)
      · intro h
        exact absurd h hac

/-- Witness for C2 at a concrete one-question test: the correct answer scores
10, and the iff holds. -/
theorem closed_question_scoring_witness :
    ([⟨"test", "2+2?", "4", ["3", "4"], ""⟩] : List Question)[0]? =
        some ⟨"test", "2+2?", "4", ["3", "4"], ""⟩ ∧
    (⟨"test", "2+2?", "4", ["3", "4"], ""⟩ : Question).type = "test" ∧
    ([(0, "4")] : List (ℕ × String)).lookup 0 = some "4" ∧
    ((generateScoreReport (fun _ _ => (0, "")) [⟨"test", "2+2?", "4", ["3", "4"], ""⟩]
        [(0, "4")]).scores[0]? = some (0, if "4" = "4" then 10 else 0) ∧
      ((generateScoreReport (fun _ _ => (0, "")) [⟨"test", "2+2?", "4", ["3", "4"], ""⟩]
          [(0, "4")]).scores[0]? = some (0, 10) ↔ ("4" : String) = "4")) :=
  ⟨rfl, rfl, rfl,
    closed_question_scoring (fun _ _ => (0, "")) [⟨"test", "2+2?", "4", ["3", "4"], ""⟩]
      [(0, "4")] 0 ⟨"test", "2+2?", "4", ["3", "4"], ""⟩ "4" rfl rfl rfl⟩

/-- C3.  For every test and answer map: the per-question scores sum to the
`total_score` interpolated into the final report line; every question
contributes exactly 10 to `max_score`; the percentage is
`total_score / max_score * 100` when `max_score > 0` and `0` otherwise (the
report renders it to one decimal, rounding half to even, via `fmtFixed1`);
the final line built from exactly these numbers is one of the report lines;
and an unanswered open question scores `0`, stores no `Comment_LLM` entry, and
none of this depends on the open-answer grader — the theorem holds for every
`checkOpen`, so the grader is never consulted for such a question. -/
theorem generate_report_spec (checkOpen : String → String → ℤ × String)
    (questions : List Question) (answers : List (ℕ × String)) :
    (((generateScoreReport checkOpen questions answers).scores.map Prod.snd).sum =
      (generateScoreReport checkOpen questions answers).total_score) ∧
    (generateScoreReport checkOpen questions answers).max_score = 10 * questions.length ∧
    ((generateScoreReport checkOpen questions answers).percentage =
      if (generateScoreReport checkOpen questions answers).max_score > 0 then
        ((generateScoreReport checkOpen questions answers).total_score : ℚ) /
          ((generateScoreReport checkOpen questions answers).max_score : ℚ) * 100
      else 0) ∧
    (finalReportLine (generateScoreReport checkOpen questions answers).total_score
        (generateScoreReport checkOpen questions answers).max_score
        (generateScoreReport checkOpen questions answers).percentage ∈
      (generateScoreReport checkOpen questions answers).report_lines) ∧
    (∀ (j : ℕ) (q : Question), questions[j]? = some q → ¬q.type = "test" →
      answers.lookup j = none →
      (generateScoreReport checkOpen questions answers).scores[j]? = some (j, 0) ∧
      j ∉ (generateScoreReport checkOpen questions answers).comment_llm.map Prod.fst) := by
  refine ⟨?_, ?_, ?_, ?_, ?_⟩
  · exact reportLoop_sum checkOpen answers 0 questions
  · exact reportLoop_max checkOpen answers 0 questions
  · rfl
  · simp only [generateScoreReport]
    simp [List.mem_append]
  · intro j q hq hty ha
    have hget := reportLoop_scores_get checkOpen answers questions 0 j q hq
    rw [Nat.zero_add, ha] at hget
    simp only [Option.getD_none] at hget
    rw [evalQuestion_unanswered checkOpen q hty] at hget
    refine ⟨hget, ?_⟩
    intro hmem
    rw [List.mem_map] at hmem
    obtain ⟨p, hp, hpj⟩ := hmem
    have := reportLoop_llm_keys checkOpen answers 0 questions p hp
    rw [hpj, ha] at this
    simp at this

/-- Witness for C3 at a concrete two-question test whose open question is
unanswered: the inner unanswered-question clause is discharged at `j = 1`. -/
theorem generate_report_spec_witness :
    ([⟨"test", "2+2?", "4", ["3", "4"], ""⟩, ⟨"open", "почему?", "потому", [], ""⟩] :
        List Question)[1]? = some ⟨"open", "почему?", "потому", [], ""⟩ ∧
    ¬(⟨"open", "почему?", "потому", [], ""⟩ : Question).type = "test" ∧
    ([(0, "4")] : List (ℕ × String)).lookup 1 = none ∧
    ((generateScoreReport (fun _ _ => (7, "комментарий"))
        [⟨"test", "2+2?", "4", ["3", "4"], ""⟩, ⟨"open", "почему?", "потому", [], ""⟩]
        [(0, "4")]).scores[1]? = some (1, 0) ∧
      1 ∉ (generateScoreReport (fun _ _ => (7, "комментарий"))
        [⟨"test", "2+2?", "4", ["3", "4"], ""⟩, ⟨"open", "почему?", "потому", [], ""⟩]
        [(0, "4")]).comment_llm.map Prod.fst) :=
  ⟨rfl, by decide, rfl,
    (generate_report_spec (fun _ _ => (7, "комментарий"))
        [⟨"test", "2+2?", "4", ["3", "4"], ""⟩, ⟨"open", "почему?", "потому", [], ""⟩]
        [(0, "4")]).2.2.2.2 1 ⟨"open", "почему?", "потому", [], ""⟩ rfl (by decide) rfl⟩

/-! ## Persistence gateway (`database.py`) -/

/-- A stored appeal (an element of `result["appeals"]`). -/
structure PyAppeal where
  id : String
  question_idx : ℕ
  student_comment : String
  status : String
  timestamp : String
deriving DecidableEq

/-- The `appeal_data` dict passed to `Database.save_appeal`; the `id` key is
assigned inside `_save_appeal`. -/
structure AppealData where
  question_idx : ℕ
  student_comment : String
  status : String
  timestamp : String
deriving DecidableEq

/-- A stored test result (an element of `results.json[user_id]["tests"]`).
Python keys `scores`/`comments` by `str(q_idx)`; decimal rendering of
naturals being injective, the embedding keys them by `q_idx` itself.
`user_id` models the optional `"user_id"` key inside the stored dict:
`Database.save_result` never writes one, so it is `none` for every result the
system itself persists (`load_all_results` injects the owning outer key into
the *loaded copies* only, never back into the file). -/
structure PyResult where
  id : String
  test_id : String := ""
  student_info : String := ""
  scores : List (ℕ × ℚ) := []
  comments : List (ℕ × String) := []
  appeals : List PyAppeal := []
  timestamp : String := ""
  user_id : Option String := none
deriving DecidableEq

/-- The parsed `results.json`: outer dict `user_id → \x7b"tests": [...]\x7d`,
in insertion order. -/
abbrev ResultsFile := List (String × List PyResult)

/-- `data[user_id]` on the outer dict. -/
def lookupUser : ResultsFile → String → Option (List PyResult)
  | [], _ => none
  | (u, tests) :: rest, uid => if u = uid then some tests else lookupUser rest uid

/-- The `for test in data[user_id]["tests"]`-style scan for the first result
with the given id. -/
def findResultInTests : List PyResult → String → Option PyResult
  | [], _ => none
  | r :: rest, rid => if r.id = rid then some r else findResultInTests rest rid

/-- The upsert loop inside `_save_appeal`: replace the first appeal with the
same `question_idx`, keeping its `id`; otherwise append a new appeal carrying
the fresh uuid `fresh_id`. -/
def upsertAppeal (appeals : List PyAppeal) (ad : AppealData) (fresh_id : String) :
    List PyAppeal :=
  match appeals with
  | [] => [⟨fresh_id, ad.question_idx, ad.student_comment, ad.status, ad.timestamp⟩]
  | a :: rest =>
    if a.question_idx = ad.question_idx then
      ⟨a.id, ad.question_idx, ad.student_comment, ad.status, ad.timestamp⟩ :: rest
    else a :: upsertAppeal rest ad fresh_id

/-- The `for test in data[user_id]["tests"]` loop of `_save_appeal`: update the
first result whose `id` matches, else `none` (which `_save_appeal` turns into
the raised `ValueError`). -/
def saveAppealTests (tests : List PyResult) (result_id : String) (ad : AppealData)
    (fresh_id : String) : Option (List PyResult) :=
  match tests with
  | [] => none
  | r :: rest =>
    if r.id = result_id then
      some ({ r with appeals := upsertAppeal r.appeals ad fresh_id } :: rest)
    else
      (saveAppealTests rest result_id ad fresh_id).map (r :: ·)

/-- The inner `_save_appeal` closure of `Database.save_appeal` (database.py,
lines 134–162): raises `ValueError` (modelled as `Except.error` with the exact
message) when the user or the result is missing, otherwise writes the upserted
file.  `fresh_id` stands for `str(uuid.uuid4())`. -/
def saveAppealInner (file : ResultsFile) (user_id result_id : String)
    (ad : AppealData) (fresh_id : String) : Except String ResultsFile :=
  match file with
  | [] => .error ("Пользователь " ++ user_id ++ " не найден")
  | (u, tests) :: rest =>
    if u = user_id then
      match saveAppealTests tests result_id ad fresh_id with
      | some tests2 => .ok ((u, tests2) :: rest)
      | none => .error ("Результат " ++ result_id ++ " не найден")
    else
      (saveAppealInner rest user_id result_id ad fresh_id).map
        (fun f => (u, tests) :: f)

/-- `Database.save_appeal` runs `_save_appeal` on the orchestrator thread,
whose worker catches *every* exception and only logs it
(`except Exception as e: logger.error(...)` in `_start_orchestrator`).  The
pair returned here is (durable file after the call, logged error if any);
the second component never reaches the caller. -/
def saveAppealRun (file : ResultsFile) (user_id result_id : String)
    (ad : AppealData) (fresh_id : String) : ResultsFile × Option String :=
  match saveAppealInner file user_id result_id ad fresh_id with
  | .ok f => (f, none)
  | .error e => (file, some e)

/-- `Database.save_appeal` as observed by its caller: it blocks on
`write_queue.join()` and then returns `None` unconditionally — no exception
propagates out of the orchestrator — so the only caller-observable effect is
the durable file. -/
def saveAppeal (file : ResultsFile) (user_id result_id : String)
    (ad : AppealData) (fresh_id : String) : ResultsFile :=
  (saveAppealRun file user_id result_id ad fresh_id).1

lemma upsertAppeal_append (l : List PyAppeal) (ad : AppealData) (f : String)
    (h : ∀ a ∈ l, a.question_idx ≠ ad.question_idx) :
    upsertAppeal l ad f =
      l ++ [⟨f, ad.question_idx, ad.student_comment, ad.status, ad.timestamp⟩] := by
  induction l with
  | nil => rfl
  | cons a rest ih =>
    unfold upsertAppeal
    rw [if_neg (h a (List.mem_cons_self a rest))]
    rw [ih fun x hx => h x (List.mem_cons_of_mem a hx)]
    rfl

lemma upsertAppeal_replace_last (l : List PyAppeal) (a1 : PyAppeal)
    (ad : AppealData) (f : String)
    (h : ∀ a ∈ l, a.question_idx ≠ ad.question_idx)
    (ha : a1.question_idx = ad.question_idx) :
    upsertAppeal (l ++ [a1]) ad f =
      l ++ [⟨a1.id, ad.question_idx, ad.student_comment, ad.status, ad.timestamp⟩] := by
  induction l with
  | nil =>
    rw [List.nil_append]
    unfold upsertAppeal
    rw [if_pos ha, List.nil_append]
  | cons a rest ih =>
    rw [List.cons_append]
    unfold upsertAppeal
    rw [if_neg (h a (List.mem_cons_self a rest))]
    rw [ih fun x hx => h x (List.mem_cons_of_mem a hx)]
    rfl

lemma saveAppealTests_of_find (tests : List PyResult) (rid : String)
    (ad : AppealData) (f : String) (r : PyResult)
    (h : findResultInTests tests rid = some r) :
    ∃ tests2, saveAppealTests tests rid ad f = some tests2 ∧
      findResultInTests tests2 rid =
        some { r with appeals := upsertAppeal r.appeals ad f } := by
  induction tests with
  | nil => simp [findResultInTests] at h
  | cons r0 rest ih =>
    unfold findResultInTests at h
    by_cases h0 : r0.id = rid
    · rw [if_pos h0, Option.some_inj] at h
      subst h
      refine ⟨{ r0 with appeals := upsertAppeal r0.appeals ad f } :: rest, ?_, ?_⟩
      · unfold saveAppealTests
        rw [if_pos h0]
      · simp [findResultInTests, h0]
    · rw [if_neg h0] at h
      obtain ⟨tests2, ht, hf⟩ := ih h
      refine ⟨r0 :: tests2, ?_, ?_⟩
      · unfold saveAppealTests
        rw [if_neg h0, ht]
        rfl
      · unfold findResultInTests
        rw [if_neg h0]
        exact hf

lemma saveAppealInner_of_found (file : ResultsFile) (uid rid : String)
    (ad : AppealData) (f : String) (tests tests2 : List PyResult)
    (hu : lookupUser file uid = some tests)
    (ht : saveAppealTests tests rid ad f = some tests2) :
    ∃ file2, saveAppealInner file uid rid ad f = .ok file2 ∧
      lookupUser file2 uid = some tests2 := by
  induction file with
  | nil => simp [lookupUser] at hu
  | cons p rest ih =>
    obtain ⟨u, ts⟩ := p
    unfold lookupUser at hu
    by_cases h0 : u = uid
    · rw [if_pos h0, Option.some_inj] at hu
      subst hu
      refine ⟨(u, tests2) :: rest, ?_, ?_⟩
      · unfold saveAppealInner
        rw [if_pos h0, ht]
      · unfold lookupUser
        rw [if_pos h0]
    · rw [if_neg h0] at hu
      obtain ⟨file2, hok, hl⟩ := ih hu
      refine ⟨(u, ts) :: file2, ?_, ?_⟩
      · unfold saveAppealInner
        rw [if_neg h0, hok]
        rfl
      · unfold lookupUser
        rw [if_neg h0]
        exact hl

lemma saveAppeal_of_ok (file file2 : ResultsFile) (uid rid : String)
    (ad : AppealData) (f : String)
    (h : saveAppealInner file uid rid ad f = .ok file2) :
    saveAppeal file uid rid ad f = file2 := by
  unfold saveAppeal saveAppealRun
  rw [h]

/-- C4.  Submitting two appeals for the same `(result_id, question_idx)`
leaves exactly one appeal for that pair in the stored result — carrying the
second submission's comment and timestamp and the `id` assigned to the first
appeal — and every appeal for another question index is untouched. -/
theorem appeal_upsert (file : ResultsFile) (uid rid : String)
    (tests : List PyResult) (r : PyResult) (i : ℕ)
    (c₁ st₁ ts₁ c₂ st₂ ts₂ f₁ f₂ : String)
    (hu : lookupUser file uid = some tests)
    (hr : findResultInTests tests rid = some r)
    (hnone : ∀ a ∈ r.appeals, a.question_idx ≠ i) :
    ∃ tests₂ r₂,
      lookupUser
          (saveAppeal (saveAppeal file uid rid ⟨i, c₁, st₁, ts₁⟩ f₁)
            uid rid ⟨i, c₂, st₂, ts₂⟩ f₂) uid = some tests₂ ∧
      findResultInTests tests₂ rid = some r₂ ∧
      r₂.appeals = r.appeals ++ [⟨f₁, i, c₂, st₂, ts₂⟩] ∧
      r₂.appeals.filter (fun a => a.question_idx == i) = [⟨f₁, i, c₂, st₂, ts₂⟩] ∧
      r₂.appeals.filter (fun a => a.question_idx != i) = r.appeals := by
  obtain ⟨tests₁, ht₁, hf₁⟩ := saveAppealTests_of_find tests rid ⟨i, c₁, st₁, ts₁⟩ f₁ r hr
  obtain ⟨file₁, hok₁, hu₁⟩ := saveAppealInner_of_found file uid rid _ f₁ tests tests₁ hu ht₁
  have hs₁ : saveAppeal file uid rid ⟨i, c₁, st₁, ts₁⟩ f₁ = file₁ :=
    saveAppeal_of_ok _ _ _ _ _ _ hok₁
  have happ₁ : upsertAppeal r.appeals ⟨i, c₁, st₁, ts₁⟩ f₁ =
      r.appeals ++ [⟨f₁, i, c₁, st₁, ts₁⟩] :=
    upsertAppeal_append r.appeals ⟨i, c₁, st₁, ts₁⟩ f₁ hnone
  rw [happ₁] at hf₁
  obtain ⟨tests₂, ht₂, hf₂⟩ := saveAppealTests_of_find tests₁ rid ⟨i, c₂, st₂, ts₂⟩ f₂ _ hf₁
  obtain ⟨file₂, hok₂, hu₂⟩ := saveAppealInner_of_found file₁ uid rid _ f₂ tests₁ tests₂ hu₁ ht₂
  have hs₂ : saveAppeal file₁ uid rid ⟨i, c₂, st₂, ts₂⟩ f₂ = file₂ :=
    saveAppeal_of_ok _ _ _ _ _ _ hok₂
  have happ₂ : upsertAppeal (r.appeals ++ [⟨f₁, i, c₁, st₁, ts₁⟩]) ⟨i, c₂, st₂, ts₂⟩ f₂ =
      r.appeals ++ [⟨f₁, i, c₂, st₂, ts₂⟩] :=
    upsertAppeal_replace_last r.appeals ⟨f₁, i, c₁, st₁, ts₁⟩ ⟨i, c₂, st₂, ts₂⟩ f₂ hnone rfl
  rw [happ₂] at hf₂
  refine ⟨tests₂, _, by rw [hs₁, hs₂]; exact hu₂, hf₂, rfl, ?_, ?_⟩
  · rw [List.filter_append]
    have h1 : r.appeals.filter (fun a => a.question_idx == i) = [] :=
      List.filter_eq_nil_iff.mpr fun a ha => by
        simpa using hnone a ha
    rw [h1]
    simp
  · rw [List.filter_append]
    have h1 : r.appeals.filter (fun a => a.question_idx != i) = r.appeals :=
      List.filter_eq_self.mpr fun a ha => by
        simpa using hnone a ha
    rw [h1]
    simp

/-- Witness for C4: two appeals on question 0 of a freshly stored result. -/
theorem appeal_upsert_witness :
    lookupUser [("student1", [{ id := "res1", test_id := "t1" }])] "student1" =
      some [{ id := "res1", test_id := "t1" }] ∧
    findResultInTests [{ id := "res1", test_id := "t1" }] "res1" =
      some { id := "res1", test_id := "t1" } ∧
    (∀ a ∈ (({ id := "res1", test_id := "t1" } : PyResult)).appeals,
      a.question_idx ≠ 0) ∧
    (∃ tests₂ r₂,
      lookupUser
          (saveAppeal
            (saveAppeal [("student1", [{ id := "res1", test_id := "t1" }])]
              "student1" "res1" ⟨0, "первый", "pending", "T1"⟩ "uuid-1")
            "student1" "res1" ⟨0, "второй", "pending", "T2"⟩ "uuid-2") "student1" =
        some tests₂ ∧
      findResultInTests tests₂ "res1" = some r₂ ∧
      r₂.appeals =
        ({ id := "res1", test_id := "t1" } : PyResult).appeals ++
          [⟨"uuid-1", 0, "второй", "pending", "T2"⟩] ∧
      r₂.appeals.filter (fun a => a.question_idx == 0) =
        [⟨"uuid-1", 0, "второй", "pending", "T2"⟩] ∧
      r₂.appeals.filter (fun a => a.question_idx != 0) =
        ({ id := "res1", test_id := "t1" } : PyResult).appeals) :=
  ⟨rfl, rfl, by simp,
    appeal_upsert [("student1", [{ id := "res1", test_id := "t1" }])] "student1" "res1"
      [{ id := "res1", test_id := "t1" }] { id := "res1", test_id := "t1" } 0
      "первый" "pending" "T1" "второй" "pending" "T2" "uuid-1" "uuid-2"
      rfl rfl (by simp)⟩

/-- C5 (counter-evidence).  When the target user — or the target result — does
not exist, the inner `_save_appeal` does raise a `ValueError`, but the
orchestrator worker catches and merely logs it: `Database.save_appeal`
returns normally, so no NotFound-equivalent error reaches the caller, while
the stored results collection is left unchanged.  The caller is therefore led
to believe the appeal was saved (the bot even logs
"Appeal saved successfully" and shows the success screen in
`process_appeal_comment`, whose `except` branch can never fire). -/
theorem save_appeal_missing_user_swallowed :
    saveAppealInner [("u1", [{ id := "r1", test_id := "t1" }])] "u2" "r1"
        ⟨0, "нечестно", "pending", "2024-01-01"⟩ "fresh-id" =
      .error ("Пользователь " ++ "u2" ++ " не найден") ∧
    saveAppealRun [("u1", [{ id := "r1", test_id := "t1" }])] "u2" "r1"
        ⟨0, "нечестно", "pending", "2024-01-01"⟩ "fresh-id" =
      ([("u1", [{ id := "r1", test_id := "t1" }])],
        some ("Пользователь " ++ "u2" ++ " не найден")) ∧
    saveAppeal [("u1", [{ id := "r1", test_id := "t1" }])] "u2" "r1"
        ⟨0, "нечестно", "pending", "2024-01-01"⟩ "fresh-id" =
      [("u1", [{ id := "r1", test_id := "t1" }])] ∧
    saveAppealInner [("u1", [{ id := "r1", test_id := "t1" }])] "u1" "r9"
        ⟨0, "нечестно", "pending", "2024-01-01"⟩ "fresh-id" =
      .error ("Результат " ++ "r9" ++ " не найден") ∧
    saveAppeal [("u1", [{ id := "r1", test_id := "t1" }])] "u1" "r9"
        ⟨0, "нечестно", "pending", "2024-01-01"⟩ "fresh-id" =
      [("u1", [{ id := "r1", test_id := "t1" }])] :=
  ⟨rfl, rfl, rfl, rfl, rfl⟩

/-! ## Teacher score editing (`TeacherResultsViewer.save_score`) -/

/-- A pending notification as built by `TeacherResultsViewer._add_change`:
the per-test `context.user_data["test_changes"]` lists are modelled as one
flat list of changes carrying their `test_id`. -/
structure Change where
  type : String
  student_id : String
  test_id : String
  test_name : String
  question_idx : ℕ
  question_text : String
  score : ℚ
  comment : String
  change_id : String
deriving DecidableEq

/-- Python truthiness of `result.get("user_id")`: `None` and `""` are falsy. -/
def isTruthy : Option String → Bool
  | none => false
  | some s => s != ""

/-- Dict assignment `d[k] = v` on an association list: replace the first
binding of `k`, else append. -/
def dictSet {β : Type} (l : List (ℕ × β)) (k : ℕ) (v : β) : List (ℕ × β) :=
  match l with
  | [] => [(k, v)]
  | (k', v') :: rest => if k' = k then (k, v) :: rest else (k', v') :: dictSet rest k v

/-- The nested scan of `save_score` over `results_data.items()` /
`user_data["tests"]` for the first result with the given id, returning the
owning outer key together with the result.  The same scan order underlies
`load_all_results`, hence also `_get_user_id_by_result_id`. -/
def findResultOwner : ResultsFile → String → Option (String × PyResult)
  | [], _ => none
  | (u, tests) :: rest, rid =>
    match findResultInTests tests rid with
    | some r => some (u, r)
    | none => findResultOwner rest rid

/-- In-place mutation `result.setdefault("scores", \x7b\x7d)[str(q_idx)] = score`
of the first matching result in one user's `tests` list, or `none` when the
result is not there. -/
def setScoreInTests (tests : List PyResult) (rid : String) (k : ℕ) (v : ℚ) :
    Option (List PyResult) :=
  match tests with
  | [] => none
  | r :: rest =>
    if r.id = rid then some ({ r with scores := dictSet r.scores k v } :: rest)
    else (setScoreInTests rest rid k v).map (r :: ·)

/-- The same mutation seen at the whole-file level: `save_score` mutates the
found result object inside `results_data` and rewrites the whole file with
`_save_to_file`. -/
def setScoreInResults : ResultsFile → String → ℕ → ℚ → ResultsFile
  | [], _, _, _ => []
  | (u, tests) :: rest, rid, k, v =>
    match setScoreInTests tests rid k v with
    | some tests2 => (u, tests2) :: rest
    | none => (u, tests) :: setScoreInResults rest rid k v

/-- `TeacherResultsViewer._get_user_id_by_result_id`: scan
`load_all_results()` — which injects the owning outer key as `user_id` into
every loaded copy — for the first result with the given id. -/
def getUserIdByResultId (file : ResultsFile) (rid : String) : Option String :=
  (findResultOwner file rid).map Prod.fst

/-- `TeacherResultsViewer._add_change`: drop the change when `student_id` is
falsy, otherwise append it with the generated
`f"\x7bstudent_id\x7d_\x7btest_id\x7d_\x7bquestion_idx\x7d_\x7btype\x7d_\x7buuid4\x7d"`
change id. -/
def addChange (changes : List Change) (c : Change) (uuid : String) : List Change :=
  if c.student_id = "" then changes
  else
    changes ++
      [{ c with
          change_id := c.student_id ++ "_" ++ c.test_id ++ "_" ++
            toString c.question_idx ++ "_" ++ c.type ++ "_" ++ uuid }]

/-- Embedding of the persistence/notification core of
`TeacherResultsViewer.save_score` (logic/teacher_show_result.py,
lines 943–1009), after the message-shape and float validation already
succeeded.  `test_name`/`question_text` stand for the values fetched from
`load_test_by_id`; `uuid` for `uuid.uuid4()`.

Faithful control flow: when no result matches, the handler replies
`error_result_not_found` and nothing is written; when the stored score equals
the new one, the handler replies `score_saved` without rewriting the file and
without touching `test_changes`; otherwise the file is rewritten and the
notification block runs — `_add_change` is reached **only** when the stored
result itself carries no truthy `user_id` and the rescan of the freshly saved
file finds an owner. -/
def saveScoreCore (file : ResultsFile) (result_id : String) (q_idx : ℕ) (score : ℚ)
    (test_id test_name question_text : String) (changes : List Change)
    (uuid : String) : ResultsFile × List Change :=
  match findResultOwner file result_id with
  | none => (file, changes)
  | some (_u, result) =>
    let old_score := (result.scores.lookup q_idx).getD 0
    if old_score = score then (file, changes)
    else
      let file2 := setScoreInResults file result_id q_idx score
      let comment := (result.comments.lookup q_idx).getD "Нет"
      if isTruthy result.user_id then (file2, changes)
      else
        match getUserIdByResultId file2 result_id with
        | none => (file2, changes)
        | some sid =>
          (file2,
            addChange changes
              { type := "score", student_id := sid, test_id := test_id,
                test_name := test_name, question_idx := q_idx + 1,
                question_text := question_text, score := score,
                comment := comment, change_id := "" } uuid)

lemma setScoreInTests_of_find (tests : List PyResult) (rid : String) (k : ℕ) (v : ℚ)
    (r : PyResult) (h : findResultInTests tests rid = some r) :
    ∃ ts2, setScoreInTests tests rid k v = some ts2 ∧
      findResultInTests ts2 rid = some { r with scores := dictSet r.scores k v } := by
  induction tests with
  | nil => simp [findResultInTests] at h
  | cons r0 rest ih =>
    unfold findResultInTests at h
    by_cases h0 : r0.id = rid
    · rw [if_pos h0, Option.some_inj] at h
      subst h
      refine ⟨{ r0 with scores := dictSet r0.scores k v } :: rest, ?_, ?_⟩
      · unfold setScoreInTests
        rw [if_pos h0]
      · simp [findResultInTests, h0]
    · rw [if_neg h0] at h
      obtain ⟨ts2, ht, hf⟩ := ih h
      refine ⟨r0 :: ts2, ?_, ?_⟩
      · unfold setScoreInTests
        rw [if_neg h0, ht]
        rfl
      · unfold findResultInTests
        rw [if_neg h0]
        exact hf

lemma setScoreInTests_none (tests : List PyResult) (rid : String) (k : ℕ) (v : ℚ)
    (h : findResultInTests tests rid = none) :
    setScoreInTests tests rid k v = none := by
  induction tests with
  | nil => rfl
  | cons r0 rest ih =>
    unfold findResultInTests at h
    by_cases h0 : r0.id = rid
    · rw [if_pos h0] at h
      exact absurd h (by simp)
    · rw [if_neg h0] at h
      unfold setScoreInTests
      rw [if_neg h0, ih h]
      rfl

lemma findResultOwner_setScore (file : ResultsFile) (rid : String) (k : ℕ) (v : ℚ)
    (uid : String) (r : PyResult) (h : findResultOwner file rid = some (uid, r)) :
    findResultOwner (setScoreInResults file rid k v) rid =
      some (uid, { r with scores := dictSet r.scores k v }) := by
  induction file with
  | nil => simp [findResultOwner] at h
  | cons p rest ih =>
    obtain ⟨u, tests⟩ := p
    unfold findResultOwner at h
    rcases hf : findResultInTests tests rid with _ | r0
    · rw [hf] at h
      have hset := setScoreInTests_none tests rid k v hf
      unfold setScoreInResults
      rw [hset]
      unfold findResultOwner
      rw [hf]
      exact ih h
    · rw [hf] at h
      rw [Option.some_inj] at h
      obtain ⟨rfl, rfl⟩ := Prod.mk.injEq _ _ _ _ ▸ h
      obtain ⟨ts2, ht, hfind2⟩ := setScoreInTests_of_find tests rid k v _ hf
      unfold setScoreInResults
      rw [ht]
      unfold findResultOwner
      rw [hfind2]

/-- C6.  Editing a previously saved score: if the entered value equals the
stored one, the results file is not rewritten and no notification is enqueued;
if it differs, the stored score is updated and exactly one pending
notification is appended, keyed by the owning student, the test and the
question.  The hypothesis `r.user_id = none` states that the stored result
carries no embedded `"user_id"` key — which holds for every result the system
itself persists, since `Database.save_result` never writes one. -/
theorem save_score_spec (file : ResultsFile) (rid tid tname qtext : String)
    (q_idx : ℕ) (new : ℚ) (changes : List Change) (uuid uid : String) (r : PyResult)
    (hfind : findResultOwner file rid = some (uid, r))
    (hstored : r.user_id = none)
    (huid : uid ≠ "") :
    ((r.scores.lookup q_idx).getD 0 = new →
      saveScoreCore file rid q_idx new tid tname qtext changes uuid = (file, changes)) ∧
    ((r.scores.lookup q_idx).getD 0 ≠ new →
      ∃ c, saveScoreCore file rid q_idx new tid tname qtext changes uuid =
          (setScoreInResults file rid q_idx new, changes ++ [c]) ∧
        c.student_id = uid ∧ c.test_id = tid ∧ c.question_idx = q_idx + 1 ∧
        c.type = "score" ∧ c.score = new ∧
        findResultOwner (setScoreInResults file rid q_idx new) rid =
          some (uid, { r with scores := dictSet r.scores q_idx new })) := by
  have howner := findResultOwner_setScore file rid q_idx new uid r hfind
  constructor
  · intro heq
    unfold saveScoreCore
    rw [hfind]
    dsimp only
    rw [if_pos heq]
  · intro hne
    unfold saveScoreCore
    rw [hfind]
    dsimp only
    rw [if_neg hne]
    have htr : isTruthy r.user_id = false := by rw [hstored]; rfl
    rw [htr]
    rw [if_neg Bool.false_ne_true]
    have hget : getUserIdByResultId (setScoreInResults file rid q_idx new) rid =
        some uid := by
      unfold getUserIdByResultId
      rw [howner]
      rfl
    rw [hget]
    dsimp only
    unfold addChange
    dsimp only
    rw [if_neg huid]
    exact ⟨_, rfl, rfl, rfl, rfl, rfl, rfl, howner⟩

/-- Witness for C6: a stored result without embedded `user_id`, score edited
from 5 on question 0. -/
theorem save_score_spec_witness :
    findResultOwner [("s1", [{ id := "r1", test_id := "t1", scores := [(0, 5)] }])]
        "r1" = some ("s1", { id := "r1", test_id := "t1", scores := [(0, 5)] }) ∧
    ({ id := "r1", test_id := "t1", scores := [(0, 5)] } : PyResult).user_id = none ∧
    ("s1" : String) ≠ "" ∧
    ((({ id := "r1", test_id := "t1", scores := [(0, 5)] } : PyResult).scores.lookup 0).getD 0 = 7 →
      saveScoreCore [("s1", [{ id := "r1", test_id := "t1", scores := [(0, 5)] }])]
          "r1" 0 7 "t1" "Тест" "Вопрос" [] "uuid-7" =
        ([("s1", [{ id := "r1", test_id := "t1", scores := [(0, 5)] }])], [])) ∧
    ((({ id := "r1", test_id := "t1", scores := [(0, 5)] } : PyResult).scores.lookup 0).getD 0 ≠ 7 →
      ∃ c, saveScoreCore [("s1", [{ id := "r1", test_id := "t1", scores := [(0, 5)] }])]
          "r1" 0 7 "t1" "Тест" "Вопрос" [] "uuid-7" =
          (setScoreInResults [("s1", [{ id := "r1", test_id := "t1", scores := [(0, 5)] }])]
            "r1" 0 7, [] ++ [c]) ∧
        c.student_id = "s1" ∧ c.test_id = "t1" ∧ c.question_idx = 0 + 1 ∧
        c.type = "score" ∧ c.score = 7 ∧
        findResultOwner (setScoreInResults
            [("s1", [{ id := "r1", test_id := "t1", scores := [(0, 5)] }])] "r1" 0 7) "r1" =
          some ("s1", { ({ id := "r1", test_id := "t1", scores := [(0, 5)] } : PyResult) with
            scores := dictSet [(0, 5)] 0 7 })) :=
  ⟨rfl, rfl, by decide,
    (save_score_spec [("s1", [{ id := "r1", test_id := "t1", scores := [(0, 5)] }])]
      "r1" "t1" "Тест" "Вопрос" 0 7 [] "uuid-7" "s1"
      { id := "r1", test_id := "t1", scores := [(0, 5)] } rfl rfl (by decide)).1,
    (save_score_spec [("s1", [{ id := "r1", test_id := "t1", scores := [(0, 5)] }])]
      "r1" "t1" "Тест" "Вопрос" 0 7 [] "uuid-7" "s1"
      { id := "r1", test_id := "t1", scores := [(0, 5)] } rfl rfl (by decide)).2⟩

/-! ## Authoring flow options handling (`teacher_create.py`) -/

/-- Python `str.split(',')` at the character level: split on every comma,
keeping empty fragments. -/
def splitCommaAux : List Char → List (List Char)
  | [] => [[]]
  | c :: rest =>
    let r := splitCommaAux rest
    if c = ',' then [] :: r
    else
      match r with
      | [] => [[c]]
      | h :: t => (c :: h) :: t

/-- The whitespace characters stripped by `str.strip()` (the ASCII ones, which
cover chat input). -/
def isPySpace (c : Char) : Bool := c = ' ' ∨ c = '\t' ∨ c = '\n' ∨ c = '\r'

/-- Python `str.strip()`. -/
def pyStrip (s : String) : String :=
  String.mk ((s.data.dropWhile isPySpace).reverse.dropWhile isPySpace).reverse

/-- The option parsing shared by `process_options` and the options branch of
`save_edited_question`:
`[opt.strip() for opt in new_value.split(',') if opt.strip()]`. -/
def parseOptions (options_input : String) : List String :=
  (((splitCommaAux options_input.data).map String.mk).map pyStrip).filter
    (fun s => s ≠ "")

/-- Embedding of `TeacherTestCreator.process_options`
(logic/teacher_create.py, lines 756–775): parse the extra options, re-prompt
(`none`) when `validate_options` rejects, otherwise store
`options + [correct_answer]` on the current question and return the stored
options list. -/
def process_options (options_input : String) (correct_answer : String) :
    Option (List String) :=
  let options := parseOptions options_input
  if validate_options options correct_answer = false then none
  else some (options ++ [correct_answer])

/-- The `part == "options"` branch of `TeacherTestCreator.save_edited_question`
(logic/teacher_create.py, lines 984–1016): identical parsing and validation
against the question's current correct answer; on success the question's
options become `options + [correct_answer]`. -/
def save_edited_options (q : Question) (new_value : String) : Option Question :=
  let options := parseOptions new_value
  if validate_options options q.correct_answer = false then none
  else some { q with options := options ++ [q.correct_answer] }

/-- The `part == "correct"` branch of `save_edited_question`: the correct
answer is overwritten first, and for a closed question with a non-empty
options list the options are rebuilt as
`[opt for opt in options if opt != correct_answer] + [new_value]`. -/
def save_edited_correct (q : Question) (new_value : String) : Question :=
  let q2 := { q with correct_answer := new_value }
  if q2.type = "test" ∧ q2.options ≠ [] then
    { q2 with
      options := q2.options.filter (fun opt => opt ≠ q2.correct_answer) ++ [new_value] }
  else q2

lemma validate_options_true_iff (options : List String) (correct_answer : String) :
    validate_options options correct_answer = true ↔
      2 ≤ (options ++ [correct_answer]).length ∧
      (options ++ [correct_answer]).length ≤ 7 ∧
      (options ++ [correct_answer]).Nodup := by
  unfold validate_options
  dsimp only
  split_ifs with h1 h2
  · simp only [Bool.false_eq_true, false_iff]
    rintro ⟨ha, hb, -⟩
    rcases h1 with h | h <;> omega
  · simp only [Bool.false_eq_true, false_iff]
    rintro ⟨-, -, hnd⟩
    exact h2 (by rw [List.dedup_eq_self.2 hnd])
  · simp only [true_iff]
    push_neg at h1
    refine ⟨by omega, by omega, ?_⟩
    have hdl := not_ne_iff.mp h2
    have := List.Sublist.eq_of_length (List.dedup_sublist _) hdl
    exact this ▸ (options ++ [correct_answer]).nodup_dedup

/-- C10.  Every options list stored by the authoring flow's options step, by
the options edit step, or by the correct-answer edit step of a closed question
ends with the question's correct answer as its last element; in particular the
correct answer is always a member of the stored options, and the list stays
duplicate-free (for the correct-answer edit, provided it was duplicate-free
before, as every validated list is). -/
theorem options_end_with_correct :
    (∀ (input correct : String) (opts : List String),
      process_options input correct = some opts →
        opts.getLast? = some correct ∧ correct ∈ opts ∧ opts.Nodup) ∧
    (∀ (q : Question) (nv : String) (q2 : Question),
      save_edited_options q nv = some q2 →
        q2.options.getLast? = some q2.correct_answer ∧
        q2.correct_answer ∈ q2.options ∧ q2.options.Nodup) ∧
    (∀ (q : Question) (nv : String), q.type = "test" → q.options ≠ [] →
      (save_edited_correct q nv).options.getLast? =
        some (save_edited_correct q nv).correct_answer ∧
      (save_edited_correct q nv).correct_answer ∈ (save_edited_correct q nv).options ∧
      (q.options.Nodup → (save_edited_correct q nv).options.Nodup)) := by
  refine ⟨?_, ?_, ?_⟩
  · intro input correct opts h
    unfold process_options at h
    dsimp only at h
    split_ifs at h with hv
    rw [Option.some_inj] at h
    subst h
    have hval : validate_options (parseOptions input) correct = true := by
      cases hb : validate_options (parseOptions input) correct
      · exact absurd hb hv
      · rfl
    have hnd := ((validate_options_true_iff _ _).mp hval).2.2
    exact ⟨List.getLast?_concat _, List.mem_append_right _ (List.mem_singleton_self _), hnd⟩
  · intro q nv q2 h
    unfold save_edited_options at h
    dsimp only at h
    split_ifs at h with hv
    rw [Option.some_inj] at h
    subst h
    have hval : validate_options (parseOptions nv) q.correct_answer = true := by
      cases hb : validate_options (parseOptions nv) q.correct_answer
      · exact absurd hb hv
      · rfl
    have hnd := ((validate_options_true_iff _ _).mp hval).2.2
    exact ⟨List.getLast?_concat _, List.mem_append_right _ (List.mem_singleton_self _), hnd⟩
  · intro q nv hty hopt
    unfold save_edited_correct
    dsimp only
    rw [if_pos ⟨hty, hopt⟩]
    refine ⟨List.getLast?_concat _, List.mem_append_right _ (List.mem_singleton_self _), ?_⟩
    intro hnd
    refine List.Nodup.append (hnd.filter _) (List.nodup_singleton _) ?_
    intro a ha hb
    rw [List.mem_singleton] at hb
    subst hb
    have := List.of_mem_filter ha
    simp at this

/-- Witness for C10: the options step on input `"A, B"` with correct answer
`"C"`, and a correct-answer edit of a closed question. -/
theorem options_end_with_correct_witness :
    process_options "A, B" "C" = some ["A", "B", "C"] ∧
    (["A", "B", "C"].getLast? = some "C" ∧ ("C" : String) ∈ ["A", "B", "C"] ∧
      (["A", "B", "C"] : List String).Nodup) ∧
    (⟨"test", "т", "B", ["A", "B"], ""⟩ : Question).type = "test" ∧
    (⟨"test", "т", "B", ["A", "B"], ""⟩ : Question).options ≠ [] ∧
    ((save_edited_correct ⟨"test", "т", "B", ["A", "B"], ""⟩ "X").options.getLast? =
        some (save_edited_correct ⟨"test", "т", "B", ["A", "B"], ""⟩ "X").correct_answer ∧
      (save_edited_correct ⟨"test", "т", "B", ["A", "B"], ""⟩ "X").correct_answer ∈
        (save_edited_correct ⟨"test", "т", "B", ["A", "B"], ""⟩ "X").options ∧
      ((⟨"test", "т", "B", ["A", "B"], ""⟩ : Question).options.Nodup →
        (save_edited_correct ⟨"test", "т", "B", ["A", "B"], ""⟩ "X").options.Nodup)) :=
  ⟨rfl,
    options_end_with_correct.1 "A, B" "C" ["A", "B", "C"] rfl,
    rfl, by decide,
    options_end_with_correct.2.2 ⟨"test", "т", "B", ["A", "B"], ""⟩ "X" rfl (by decide)⟩

/-- C1.  `_check_open_answer` is deterministic; its score is the floor of ten
times the similarity ratio of the lower-cased answers, clamped to `[0, 10]`
(for a ratio in `[0, 1]` the clamp is the identity, so the score is exactly the
floor and lies in `[0, 10]`); and the comment band is selected by the
documented thresholds, tested in order `score ≥ 8`, `score ≥ 5`, `score ≥ 2`,
otherwise the no-match band. -/
theorem check_open_answer_spec (ratio : String → String → ℚ) (ua ca : String)
    (h0 : 0 ≤ ratio ua.toLower ca.toLower) (h1 : ratio ua.toLower ca.toLower ≤ 1) :
    (checkOpenAnswer ratio ua ca).1 = ⌊ratio ua.toLower ca.toLower * 10⌋ ∧
    0 ≤ (checkOpenAnswer ratio ua ca).1 ∧
    (checkOpenAnswer ratio ua ca).1 ≤ 10 ∧
    (∀ ratio₂ ua₂ ca₂, ratio₂ = ratio → ua₂ = ua → ca₂ = ca →
      checkOpenAnswer ratio₂ ua₂ ca₂ = checkOpenAnswer ratio ua ca) ∧
    (8 ≤ (checkOpenAnswer ratio ua ca).1 →
      (checkOpenAnswer ratio ua ca).2 = commentPrefix ++ bandExcellent) ∧
    (5 ≤ (checkOpenAnswer ratio ua ca).1 ∧ (checkOpenAnswer ratio ua ca).1 < 8 →
      (checkOpenAnswer ratio ua ca).2 = commentPrefix ++ bandPartial) ∧
    (2 ≤ (checkOpenAnswer ratio ua ca).1 ∧ (checkOpenAnswer ratio ua ca).1 < 5 →
      (checkOpenAnswer ratio ua ca).2 = commentPrefix ++ bandSome) ∧
    ((checkOpenAnswer ratio ua ca).1 < 2 →
      (checkOpenAnswer ratio ua ca).2 = commentPrefix ++ bandNoMatch) := by
  set sim := ratio ua.toLower ca.toLower with hsim
  have hs10 : (0 : ℚ) ≤ sim * 10 := by positivity
  have hfloor0 : (0 : ℤ) ≤ ⌊sim * 10⌋ := Int.floor_nonneg.mpr hs10
  have hfloor10 : ⌊sim * 10⌋ ≤ 10 := by
    have h : sim * 10 ≤ 10 := by nlinarith
    have := Int.floor_le_floor h
    simpa using this
  have hval : checkOpenAnswer ratio ua ca =
      (⌊sim * 10⌋,
        commentPrefix ++
          (if 8 ≤ ⌊sim * 10⌋ then bandExcellent
           else if 5 ≤ ⌊sim * 10⌋ then bandPartial
           else if 2 ≤ ⌊sim * 10⌋ then bandSome
           else bandNoMatch)) := by
    unfold checkOpenAnswer pyInt
    dsimp only
    rw [if_pos hs10]
    have hclamp : max 0 (min 10 ⌊sim * 10⌋) = ⌊sim * 10⌋ := by omega
    rw [hclamp]
  rw [hval]
  refine ⟨rfl, hfloor0, hfloor10, ?_, ?_, ?_, ?_, ?_⟩
  · intro r₂ u₂ c₂ hr hu hc
    rw [hr, hu, hc, hval]
  · intro h8
    rw [if_pos h8]
  · rintro ⟨h5, hlt8⟩
    rw [if_neg (by omega), if_pos h5]
  · rintro ⟨h2, hlt5⟩
    rw [if_neg (by omega), if_neg (by omega), if_pos h2]
  · intro hlt2
    rw [if_neg (by omega), if_neg (by omega), if_neg (by omega)]

/-- Witness for C1: identical answers give ratio `1`, score `10`
and the excellent-work band (spec scenario B). -/
theorem check_open_answer_spec_witness :
    (0 : ℚ) ≤ (fun (_ _ : String) => (1 : ℚ)) "ответ".toLower "ответ".toLower ∧
    (fun (_ _ : String) => (1 : ℚ)) "ответ".toLower "ответ".toLower ≤ 1 ∧
    ((checkOpenAnswer (fun _ _ => 1) "ответ" "ответ").1 =
        ⌊(fun (_ _ : String) => (1 : ℚ)) "ответ".toLower "ответ".toLower * 10⌋ ∧
      0 ≤ (checkOpenAnswer (fun _ _ => 1) "ответ" "ответ").1 ∧
      (checkOpenAnswer (fun _ _ => 1) "ответ" "ответ").1 ≤ 10 ∧
      (∀ ratio₂ ua₂ ca₂, ratio₂ = (fun (_ _ : String) => (1 : ℚ)) → ua₂ = "ответ" →
        ca₂ = "ответ" →
        checkOpenAnswer ratio₂ ua₂ ca₂ = checkOpenAnswer (fun _ _ => 1) "ответ" "ответ") ∧
      (8 ≤ (checkOpenAnswer (fun _ _ => 1) "ответ" "ответ").1 →
        (checkOpenAnswer (fun _ _ => 1) "ответ" "ответ").2 =
          commentPrefix ++ bandExcellent) ∧
      (5 ≤ (checkOpenAnswer (fun _ _ => 1) "ответ" "ответ").1 ∧
          (checkOpenAnswer (fun _ _ => 1) "ответ" "ответ").1 < 8 →
        (checkOpenAnswer (fun _ _ => 1) "ответ" "ответ").2 =
          commentPrefix ++ bandPartial) ∧
      (2 ≤ (checkOpenAnswer (fun _ _ => 1) "ответ" "ответ").1 ∧
          (checkOpenAnswer (fun _ _ => 1) "ответ" "ответ").1 < 5 →
        (checkOpenAnswer (fun _ _ => 1) "ответ" "ответ").2 =
          commentPrefix ++ bandSome) ∧
      ((checkOpenAnswer (fun _ _ => 1) "ответ" "ответ").1 < 2 →
        (checkOpenAnswer (fun _ _ => 1) "ответ" "ответ").2 =
          commentPrefix ++ bandNoMatch)) :=
  ⟨zero_le_one, le_refl 1,
    check_open_answer_spec (fun _ _ => 1) "ответ" "ответ" zero_le_one (le_refl 1)⟩

/-- C7.  With a recorded `test_completed_at`, `start_appeal` proceeds to
question selection exactly when at most 24 hours (in wall-clock seconds) have
elapsed, and rejects with the expiry message otherwise. -/
theorem start_appeal_window (completed now : ℚ) :
    startAppealAllowed (some completed) now = true ↔ now - completed ≤ 24 * 3600 := by
  unfold startAppealAllowed
  dsimp only
  split_ifs with h
  · simp only [Bool.false_eq_true, false_iff, not_le]
    exact h
  · simp only [true_iff]
    exact not_lt.mp h

/-- C8.  `validate_options` accepts exactly when the combined list
`options ++ [correct_answer]` has between 2 and 7 elements and no duplicates;
in particular it rejects `\x7b"A"\x7d` with correct `"A"`, rejects seven extra
options with a distinct correct answer, and accepts `\x7b"A","B"\x7d` with
correct `"C"`. -/
theorem validate_options_spec :
    (∀ (options : List String) (correct_answer : String),
      validate_options options correct_answer = true ↔
        2 ≤ (options ++ [correct_answer]).length ∧
        (options ++ [correct_answer]).length ≤ 7 ∧
        (options ++ [correct_answer]).Nodup) ∧
    validate_options ["A"] "A" = false ∧
    validate_options ["A", "B", "C", "D", "E", "F", "G"] "H" = false ∧
    validate_options ["A", "B"] "C" = true := by
  refine ⟨?_, by decide, by decide, by decide⟩
  intro options correct_answer
  unfold validate_options
  dsimp only
  split_ifs with h1 h2
  · simp only [Bool.false_eq_true, false_iff]
    rintro ⟨ha, hb, -⟩
    rcases h1 with h | h <;> omega
  · simp only [Bool.false_eq_true, false_iff]
    rintro ⟨-, -, hnd⟩
    exact h2 (by rw [List.dedup_eq_self.2 hnd])
  · simp only [true_iff]
    push_neg at h1
    refine ⟨by omega, by omega, ?_⟩
    have hdl := not_ne_iff.mp h2
    have := List.Sublist.eq_of_length (List.dedup_sublist _) hdl
    exact this ▸ (options ++ [correct_answer]).nodup_dedup

/-- C9.  State-manager algebra: `push` then `pop` returns the pushed state and
restores the manager; data written with `set_data` is read back by `get_data`
and survives `push`/`pop` (which never touch `state_data`); `clear_state_data`
erases exactly the given state's data, leaving every other state's data
unchanged. -/
theorem state_manager_spec {σ κ α : Type} [DecidableEq σ] [DecidableEq κ]
    (m : StateManager σ κ α) (s s' : σ) (k k' : κ) (v d d' : α) (hne : s' ≠ s) :
    (m.push s).pop = (some s, m) ∧
    (m.set_data s k v).get_data s k d = v ∧
    ((((m.set_data s k v).push s').pop.2).get_data s k d = v) ∧
    ((m.push s').state_data = m.state_data ∧ m.pop.2.state_data = m.state_data) ∧
    (m.clear_state_data s).get_data s k d = d ∧
    (m.clear_state_data s).get_data s' k' d' = m.get_data s' k' d' := by
  have hget : (m.set_data s k v).get_data s k d = v := by
    unfold StateManager.set_data StateManager.get_data
    simp
  refine ⟨?_, hget, ?_, ⟨rfl, pop_state_data m⟩, ?_, ?_⟩
  · unfold StateManager.push StateManager.pop
    rw [if_neg (by simp)]
    simp only [List.getLast?_concat, List.dropLast_concat]
  · have hdata : ((((m.set_data s k v).push s').pop.2)).state_data =
        (m.set_data s k v).state_data := by
      rw [pop_state_data, push_state_data]
    unfold StateManager.get_data at hget ⊢
    rw [hdata]
    exact hget
  · unfold StateManager.clear_state_data StateManager.get_data
    simp
  · unfold StateManager.clear_state_data StateManager.get_data
    simp only [if_neg hne]

/-- Witness for C9 at a concrete manager over `String` states, keys and
values. -/
theorem state_manager_spec_witness :
    ("b" : String) ≠ "a" ∧
    ((StateManager.push ⟨[], fun _ => none⟩ "a").pop =
        (some "a", (⟨[], fun _ => none⟩ : StateManager String String String)) ∧
      ((⟨[], fun _ => none⟩ : StateManager String String String).set_data
          "a" "k" "v").get_data "a" "k" "d" = "v" ∧
      (((((⟨[], fun _ => none⟩ : StateManager String String String).set_data
          "a" "k" "v").push "b").pop.2).get_data "a" "k" "d" = "v") ∧
      (((⟨[], fun _ => none⟩ : StateManager String String String).push "b").state_data =
          (⟨[], fun _ => none⟩ : StateManager String String String).state_data ∧
        (⟨[], fun _ => none⟩ : StateManager String String String).pop.2.state_data =
          (⟨[], fun _ => none⟩ : StateManager String String String).state_data) ∧
      ((⟨[], fun _ => none⟩ : StateManager String String String).clear_state_data
          "a").get_data "a" "k" "d" = "d" ∧
      ((⟨[], fun _ => none⟩ : StateManager String String String).clear_state_data
          "a").get_data "b" "k2" "e" =
        (⟨[], fun _ => none⟩ : StateManager String String String).get_data "b" "k2" "e") :=
  ⟨by decide, state_manager_spec ⟨[], fun _ => none⟩ "a" "b" "k" "k2" "v" "d" "e" (by decide)⟩

end QuizBot
